import Mathlib

/-!
Verification of `mozetl/topline/topline_dashboard.py` (topline dashboard
reformatting).  The pipeline in `reformat_data` is embedded shallowly:

* an input dataframe row (`topline_summary` schema) becomes `SummaryRow`;
* the geo bucketing `F.when(F.col('geo').isin(countries), ...).otherwise('Other')`
  becomes `normalizeGeo`;
* the date rewrite `from_unixtime(unix_timestamp(report_start, 'yyyyMMdd'),
  'yyyy-MM-dd')` becomes `parseReportStart` (Spark returns null when the
  token does not parse, modelled as `Option.none`);
* `df.cube(geo, channel, os, date).agg(sum ...)` becomes `cubed`: one grouped
  sum per subset (mask) of the four attributes, the dimensions outside the
  grouping set reported as null (`none`), exactly as Spark's cube does;
* `.where(F.col('date').isNotNull())` becomes `whereDateNotNull`;
* `.na.fill('all')` becomes `fillAll` (string columns only);
* the total > 0 filter becomes `filteredStage`;
* the final select over `historical_schema.names` becomes `selectHistorical`.

The schema field lists live in `mozetl/topline/schema.py`, which is not part
of the sources here; the concrete instantiations below are modelled from the
spec and carry that note in their doc strings.  Numeric aggregates are
modelled as `Int`.
-/

namespace Topline

/-- The 16 countries of interest (`countries` in `topline_dashboard.py`). -/
def countries : List String :=
  ["US", "CA", "BR", "MX", "FR", "ES", "IT", "PL",
   "TR", "RU", "DE", "IN", "ID", "CN", "JP", "GB"]

/-- One row of the `topline_summary` input.  String-typed attribute columns
are nullable in Spark, hence `Option String`; `agg` holds the numeric
aggregate columns, positionally aligned with the run's aggregate-name list. -/
structure SummaryRow where
  report_start : String
  geo : Option String
  channel : Option String
  os : Option String
  agg : List Int
deriving DecidableEq

/-- Digits to a number, most significant first. -/
def natOfDigits (cs : List Char) : Nat :=
  cs.foldl (fun n c => n * 10 + (c.toNat - 48)) 0

def yearOf (s : String) : Nat := natOfDigits (s.data.take 4)

def monthOf (s : String) : Nat := natOfDigits ((s.data.drop 4).take 2)

def dayOf (s : String) : Nat := natOfDigits (s.data.drop 6)

def isLeapYear (y : Nat) : Bool :=
  (y % 4 == 0 && y % 100 != 0) || y % 400 == 0

def daysInMonth (y m : Nat) : Nat :=
  if m == 2 then (if isLeapYear y then 29 else 28)
  else if m == 4 || m == 6 || m == 9 || m == 11 then 30
  else 31

/-- Does the string denote a calendar date in `yyyyMMdd` form?  This is the
success condition of Spark's `unix_timestamp(_, 'yyyyMMdd')`. -/
def validReportStart (s : String) : Bool :=
  s.data.length == 8 && s.data.all Char.isDigit &&
    decide (1 ≤ monthOf s ∧ monthOf s ≤ 12 ∧
            1 ≤ dayOf s ∧ dayOf s ≤ daysInMonth (yearOf s) (monthOf s))

/-- Re-emit a `yyyyMMdd` token as `yyyy-MM-dd`. -/
def dashDate (s : String) : String :=
  ⟨s.data.take 4 ++ ('-' :: ((s.data.drop 4).take 2 ++ ('-' :: s.data.drop 6)))⟩

/-- `from_unixtime(unix_timestamp(report_start, 'yyyyMMdd'), 'yyyy-MM-dd')`:
a token that parses is re-emitted dashed, one that does not yields null. -/
def parseReportStart (s : String) : Option String :=
  if validReportStart s then some (dashDate s) else none

/-- `F.when(F.col('geo').isin(list(countries)), F.col('geo')).otherwise('Other')`.
A null geo fails the `isin` test (the condition is null, not true), so the
`otherwise` branch also maps it to `"Other"`. -/
def normalizeGeo (geo : Option String) : String :=
  match geo with
  | some g => if g ∈ countries then g else "Other"
  | none => "Other"

/-- A row after the select with `topline_columns`: geo bucketed (never null
afterwards), `report_start` replaced by the parsed `date`. -/
structure NormRow where
  geo : String
  channel : Option String
  os : Option String
  date : Option String
  agg : List Int
deriving DecidableEq

def normalizeRow (r : SummaryRow) : NormRow :=
  { geo := normalizeGeo r.geo
    channel := r.channel
    os := r.os
    date := parseReportStart r.report_start
    agg := r.agg }

/-- A grouping set of the cube: which of the four attributes are grouped on. -/
structure Mask where
  geo : Bool
  channel : Bool
  os : Bool
  date : Bool
deriving DecidableEq

def bools : List Bool := [true, false]

/-- All `2 ^ 4` grouping sets of `cube('geo', 'channel', 'os', 'date')`. -/
def allMasks : List Mask :=
  bools.flatMap fun g => bools.flatMap fun c => bools.flatMap fun o =>
    bools.map fun d => ⟨g, c, o, d⟩

/-- The grouping key of a row under a mask: attributes outside the grouping
set are reported as null, exactly as Spark's cube emits them. -/
structure CubeKey where
  geo : Option String
  channel : Option String
  os : Option String
  date : Option String
deriving DecidableEq

def keyOf (m : Mask) (r : NormRow) : CubeKey :=
  { geo := if m.geo then some r.geo else none
    channel := if m.channel then r.channel else none
    os := if m.os then r.os else none
    date := if m.date then r.date else none }

/-- One cube output row: the key's attribute values plus the grouped sums. -/
structure CubeRow where
  geo : Option String
  channel : Option String
  os : Option String
  date : Option String
  agg : List Int
deriving DecidableEq

def zeroAgg (n : Nat) : List Int := List.replicate n 0

def addAgg (acc : List Int) (r : NormRow) : List Int :=
  List.zipWith (· + ·) acc r.agg

/-- `F.sum` for each aggregate column over a group, `n` columns wide. -/
def sumAgg (n : Nat) (rows : List NormRow) : List Int :=
  rows.foldl addAgg (zeroAgg n)

/-- One grouping set of the cube: group the rows by their key under `m` and
sum each aggregate column within the group. -/
def groupedAgg (n : Nat) (m : Mask) (rows : List NormRow) : List CubeRow :=
  ((rows.map (keyOf m)).dedup).map fun k =>
    { geo := k.geo, channel := k.channel, os := k.os, date := k.date,
      agg := sumAgg n (rows.filter fun r => decide (keyOf m r = k)) }

/-- `df.cube('geo','channel','os','date').agg(sum ...)`. -/
def cubed (n : Nat) (rows : List NormRow) : List CubeRow :=
  allMasks.flatMap fun m => groupedAgg n m rows

/-- `.where(F.col('date').isNotNull())`. -/
def whereDateNotNull (rows : List CubeRow) : List CubeRow :=
  rows.filter fun c => c.date.isSome

/-- A cube row after `.na.fill('all')`: the string columns are non-null. -/
structure FilledRow where
  geo : String
  channel : String
  os : String
  date : String
  agg : List Int
deriving DecidableEq

/-- `.na.fill('all')` — it only fills the (null) string fields. -/
def fillAll (c : CubeRow) : FilledRow :=
  { geo := c.geo.getD "all", channel := c.channel.getD "all",
    os := c.os.getD "all", date := c.date.getD "all", agg := c.agg }

/-- `sum([F.col(x) for x in aggregates])`, the `total` column. -/
def totalOf (r : FilledRow) : Int := r.agg.foldl (· + ·) 0

def normedStage (rows : List SummaryRow) : List NormRow :=
  rows.map normalizeRow

/-- `cubed_df` without the trailing `na.fill`: cube plus the date filter. -/
def cubedStage (n : Nat) (rows : List SummaryRow) : List CubeRow :=
  whereDateNotNull (cubed n (normedStage rows))

/-- `cubed_df`: cube, date filter, null fill. -/
def filledStage (n : Nat) (rows : List SummaryRow) : List FilledRow :=
  (cubedStage n rows).map fillAll

/-- `filtered_df`: drop the rows whose aggregate total is not positive. -/
def filteredStage (n : Nat) (rows : List SummaryRow) : List FilledRow :=
  (filledStage n rows).filter fun r => decide (0 < totalOf r)

/-- An output cell: the historical csv mixes string and numeric columns. -/
inductive Value where
  | str (s : String)
  | int (n : Int)
deriving DecidableEq

/-- The `attributes` set of `reformat_data`. -/
def attributeNames : List String := ["geo", "channel", "os", "date"]

/-- The keys of the `topline_columns` dict: the topline schema names with
`report_start` swapped out for `date`. -/
def toplineColumnNames (aggNames : List String) : List String :=
  attributeNames ++ aggNames

/-- Value of an aggregate column of `filtered_df`: the aggregate columns are
stored positionally against the aggregate-name list. -/
def aggValue (aggNames : List String) (agg : List Int) (name : String) : Int :=
  match aggNames, agg with
  | n :: ns, v :: vs => if n = name then v else aggValue ns vs name
  | _, _ => 0

/-- The select sub-expression for one historical column: a column present in
`topline_columns` is copied, a missing one is `F.lit(0)`. -/
def columnValue (aggNames : List String) (r : FilledRow) (name : String) : Value :=
  if name = "geo" then .str r.geo
  else if name = "channel" then .str r.channel
  else if name = "os" then .str r.os
  else if name = "date" then .str r.date
  else if name ∈ aggNames then .int (aggValue aggNames r.agg name)
  else .int 0

/-- `filtered_df.select(*column_expr)` for one row: one cell per historical
column, in the historical schema's declared order. -/
def selectHistorical (aggNames histNames : List String) (r : FilledRow) :
    List (String × Value) :=
  histNames.map fun name => (name, columnValue aggNames r name)

/-- The whole of `reformat_data`, parameterised by the aggregate column
names of the topline schema and the historical schema's column list. -/
def reformat_data (aggNames histNames : List String) (rows : List SummaryRow) :
    List (List (String × Value)) :=
  (filteredStage aggNames.length rows).map (selectHistorical aggNames histNames)

/-- Modelled from the spec: the aggregate-field names of the topline schema
(`mozetl/topline/schema.py` is not among the sources).  The spec fixes the
attribute fields and says the numeric aggregate fields are a named,
per-run-fixed set; its concrete scenario names `actives` and `hours`. -/
def topline_agg_names : List String := ["actives", "hours"]

/-- Modelled from the spec: the historical schema's column order is `date`,
`geo`, `channel`, `os`, then the legacy aggregate columns; an aggregate
column absent from the input (here `new_records`) is filled with 0. -/
def historical_names : List String :=
  ["date", "geo", "channel", "os", "actives", "hours", "new_records"]

/-- The two-row input of the spec's concrete scenario. -/
def c1InputRows : List SummaryRow :=
  [⟨"20190101", some "FR", some "release", some "Windows", [5, 10]⟩,
   ⟨"20190101", some "FR", some "beta", some "Windows", [3, 4]⟩]

/-- The wildcard serialization of one nullable string cell. -/
def fillStr (o : Option String) : String := o.getD "all"

/-- The alternative pipeline of the spec's §4.2 edge case: rows whose
normalized date is null are removed before the cube instead of relying on
the post-cube date filter alone. -/
def reformat_data_prefiltered (aggNames histNames : List String)
    (rows : List SummaryRow) : List (List (String × Value)) :=
  ((((whereDateNotNull (cubed aggNames.length
        ((normedStage rows).filter fun nr => nr.date.isSome))).map fillAll).filter
      fun r => decide (0 < totalOf r)).map (selectHistorical aggNames histNames))

/-- A one-row input whose geo is null (for the null-categorical analysis). -/
def c10InputRows : List SummaryRow :=
  [⟨"20190101", none, some "release", some "Windows", [1]⟩]

/-! ### Helper lemmas -/

lemma normedStage_mem {rows : List SummaryRow} {nr : NormRow}
    (h : nr ∈ normedStage rows) : ∃ r ∈ rows, normalizeRow r = nr :=
  List.mem_map.1 h

lemma exists_cubedStage_row (n : Nat) {rows : List SummaryRow} {r : SummaryRow}
    (hr : r ∈ rows) {d : String} (hd : parseReportStart r.report_start = some d)
    (mg mc mo : Bool) :
    ∃ c ∈ cubedStage n rows,
      c.date = some d ∧
      c.geo = (if mg then some (normalizeGeo r.geo) else none) ∧
      c.channel = (if mc then r.channel else none) ∧
      c.os = (if mo then r.os else none) := by
  have hmm : (⟨mg, mc, mo, true⟩ : Mask) ∈ allMasks := by
    cases mg <;> cases mc <;> cases mo <;> decide
  have hnr : normalizeRow r ∈ normedStage rows := List.mem_map_of_mem _ hr
  have hk : keyOf ⟨mg, mc, mo, true⟩ (normalizeRow r) ∈
      ((normedStage rows).map (keyOf ⟨mg, mc, mo, true⟩)).dedup :=
    List.mem_dedup.2 (List.mem_map_of_mem _ hnr)
  refine ⟨_, List.mem_filter.2 ⟨List.mem_flatMap.2
      ⟨⟨mg, mc, mo, true⟩, hmm, List.mem_map_of_mem _ hk⟩, ?_⟩, ?_, ?_, ?_, ?_⟩ <;>
    simp [keyOf, normalizeRow, hd]

lemma cubedStage_elim {n : Nat} {rows : List SummaryRow} {c : CubeRow}
    (hc : c ∈ cubedStage n rows) :
    ∃ m ∈ allMasks, ∃ r ∈ rows,
      m.date = true ∧
      c.date = parseReportStart r.report_start ∧
      c.date.isSome = true ∧
      c.geo = (if m.geo then some (normalizeGeo r.geo) else none) ∧
      c.channel = (if m.channel then r.channel else none) ∧
      c.os = (if m.os then r.os else none) := by
  obtain ⟨hmem, hsome⟩ := List.mem_filter.1 hc
  obtain ⟨m, hm, hg⟩ := List.mem_flatMap.1 hmem
  obtain ⟨k, hk, hck⟩ := List.mem_map.1 hg
  obtain ⟨nr, hnr, hknr⟩ := List.mem_map.1 (List.mem_dedup.1 hk)
  obtain ⟨r, hr, hrnr⟩ := normedStage_mem hnr
  subst hknr hrnr
  have hcd : c.date = (if m.date then parseReportStart r.report_start else none) := by
    rw [← hck]; rfl
  have hmd : m.date = true := by
    by_contra hfalse
    rw [Bool.not_eq_true] at hfalse
    rw [← hck] at hsome
    simp [keyOf, hfalse] at hsome
  refine ⟨m, hm, r, hr, hmd, ?_, hsome, ?_, ?_, ?_⟩ <;>
    first
      | (rw [hcd, hmd]; simp)
      | (rw [← hck]; simp [keyOf, normalizeRow])

lemma cubedStage_date {n : Nat} {rows : List SummaryRow} {c : CubeRow}
    (hc : c ∈ cubedStage n rows) :
    ∃ d, c.date = some d ∧ ∃ r ∈ rows, parseReportStart r.report_start = some d := by
  obtain ⟨m, _, r, hr, _, hcd, hsome, _⟩ := cubedStage_elim hc
  obtain ⟨d, hd⟩ := Option.isSome_iff_exists.1 hsome
  exact ⟨d, hd, r, hr, by rw [← hcd, hd]⟩

lemma dashDate_length {s : String} (h8 : s.data.length = 8) :
    (dashDate s).data.length = 10 := by
  simp [dashDate, h8]

lemma parse_ne_all {s d : String} (h : parseReportStart s = some d) :
    d ≠ "all" := by
  unfold parseReportStart at h
  by_cases hv : validReportStart s = true
  · rw [if_pos hv] at h
    have h8 : s.data.length = 8 := by
      unfold validReportStart at hv
      simp only [Bool.and_eq_true, beq_iff_eq] at hv
      exact hv.1.1
    have hd : d = dashDate s := (Option.some.inj h).symm
    intro heq
    have := dashDate_length h8
    rw [← hd, heq] at this
    simp at this
  · rw [if_neg hv] at h
    simp at h

lemma reformat_mem {aggNames histNames : List String} {rows : List SummaryRow}
    {out : List (String × Value)}
    (h : out ∈ reformat_data aggNames histNames rows) :
    ∃ f ∈ filteredStage aggNames.length rows,
      selectHistorical aggNames histNames f = out :=
  List.mem_map.1 h

lemma filteredStage_mem {n : Nat} {rows : List SummaryRow} {f : FilledRow}
    (h : f ∈ filteredStage n rows) :
    ∃ c ∈ cubedStage n rows, fillAll c = f ∧ 0 < totalOf f := by
  obtain ⟨hmem, hpos⟩ := List.mem_filter.1 h
  obtain ⟨c, hc, hcf⟩ := List.mem_map.1 hmem
  exact ⟨c, hc, hcf, of_decide_eq_true hpos⟩

lemma foldl_addAgg_length {n : Nat} :
    ∀ (rows : List NormRow), (∀ r ∈ rows, r.agg.length = n) →
      ∀ acc : List Int, acc.length = n → (rows.foldl addAgg acc).length = n := by
  intro rows
  induction rows with
  | nil => intro _ acc hacc; simpa using hacc
  | cons r rs ih =>
    intro h acc hacc
    have hr : r.agg.length = n := h r (by simp)
    refine ih (fun x hx => h x (by simp [hx])) _ ?_
    simp [addAgg, hacc, hr]

lemma sumAgg_length {n : Nat} {rows : List NormRow}
    (h : ∀ r ∈ rows, r.agg.length = n) : (sumAgg n rows).length = n :=
  foldl_addAgg_length rows h _ (by simp [zeroAgg])

lemma cubedStage_agg_length {n : Nat} {rows : List SummaryRow}
    (hWF : ∀ r ∈ rows, r.agg.length = n) {c : CubeRow}
    (hc : c ∈ cubedStage n rows) : c.agg.length = n := by
  obtain ⟨hmem, _⟩ := List.mem_filter.1 hc
  obtain ⟨m, _, hg⟩ := List.mem_flatMap.1 hmem
  obtain ⟨k, hk, hck⟩ := List.mem_map.1 hg
  rw [← hck]
  apply sumAgg_length
  intro nr hnr
  obtain ⟨r, hr, hrnr⟩ := normedStage_mem (List.mem_of_mem_filter hnr)
  rw [← hrnr]
  exact hWF r hr

lemma dedup_filter {α : Type _} [DecidableEq α] (p : α → Bool) :
    ∀ l : List α, (l.filter p).dedup = l.dedup.filter p := by
  intro l
  induction l with
  | nil => simp
  | cons a l ih =>
    by_cases hmem : a ∈ l
    · rw [List.dedup_cons_of_mem hmem]
      by_cases hp : p a
      · rw [List.filter_cons_of_pos hp,
            List.dedup_cons_of_mem (List.mem_filter.2 ⟨hmem, hp⟩), ih]
      · rw [List.filter_cons_of_neg hp, ih]
    · rw [List.dedup_cons_of_not_mem hmem]
      by_cases hp : p a
      · rw [List.filter_cons_of_pos hp,
            List.dedup_cons_of_not_mem (fun hc => hmem (List.mem_of_mem_filter hc)),
            List.filter_cons_of_pos hp, ih]
      · rw [List.filter_cons_of_neg hp, List.filter_cons_of_neg hp, ih]

lemma keyOf_date {m : Mask} (hm : m.date = true) (r : NormRow) :
    (keyOf m r).date = r.date := by
  simp [keyOf, hm]

lemma map_keyOf_filter {m : Mask} (hm : m.date = true) (rows : List NormRow) :
    (rows.filter fun r => r.date.isSome).map (keyOf m) =
    (rows.map (keyOf m)).filter (fun k => k.date.isSome) := by
  induction rows with
  | nil => rfl
  | cons r rs ih =>
    simp only [List.filter_cons, List.map_cons, keyOf_date hm]
    by_cases h : r.date.isSome = true
    · simp [h, ih]
    · simp [h, ih]

lemma group_filter_date {m : Mask} (hm : m.date = true) {k : CubeKey}
    (hk : k.date.isSome = true) (rows : List NormRow) :
    ((rows.filter fun r => r.date.isSome).filter
        fun r => decide (keyOf m r = k)) =
    rows.filter fun r => decide (keyOf m r = k) := by
  rw [List.filter_filter]
  apply List.filter_congr
  intro r _
  by_cases h : keyOf m r = k
  · have : r.date.isSome = true := by
      rw [← keyOf_date hm r, h]; exact hk
    simp [h, this]
  · simp [h]

lemma whereDate_groupedAgg_of_not_date {n : Nat} {m : Mask} (hm : m.date = false)
    (rows : List NormRow) :
    (groupedAgg n m rows).filter (fun c => c.date.isSome) = [] := by
  rw [List.filter_eq_nil_iff]
  intro c hc
  obtain ⟨k, hk, hck⟩ := List.mem_map.1 hc
  obtain ⟨nr, hnr, hknr⟩ := List.mem_map.1 (List.mem_dedup.1 hk)
  subst hknr
  rw [← hck]
  simp [keyOf, hm]

lemma filter_idem {α : Type _} (p : α → Bool) (l : List α) :
    (l.filter p).filter p = l.filter p := by
  rw [List.filter_filter]
  apply List.filter_congr
  intro a _
  exact Bool.and_self _

lemma filter_date_groupedAgg (n : Nat) (m : Mask) (rows : List NormRow) :
    (groupedAgg n m rows).filter (fun c => c.date.isSome) =
    ((rows.map (keyOf m)).dedup.filter (fun k => k.date.isSome)).map fun k =>
      { geo := k.geo, channel := k.channel, os := k.os, date := k.date,
        agg := sumAgg n (rows.filter fun r => decide (keyOf m r = k)) } := by
  unfold groupedAgg
  rw [List.filter_map]
  rfl

lemma whereDate_groupedAgg_of_date {n : Nat} {m : Mask} (hm : m.date = true)
    (rows : List NormRow) :
    (groupedAgg n m (rows.filter fun r => r.date.isSome)).filter
      (fun c => c.date.isSome) =
    (groupedAgg n m rows).filter (fun c => c.date.isSome) := by
  rw [filter_date_groupedAgg, filter_date_groupedAgg, map_keyOf_filter hm,
      dedup_filter, filter_idem]
  apply List.map_congr_left
  intro k hk
  have hkd : k.date.isSome = true := (List.mem_filter.1 hk).2
  rw [group_filter_date hm hkd]

lemma zipWith_add_right_comm : ∀ (z a b : List Int),
    List.zipWith (· + ·) (List.zipWith (· + ·) z a) b =
    List.zipWith (· + ·) (List.zipWith (· + ·) z b) a := by
  intro z
  induction z with
  | nil => intro a b; simp
  | cons c z ih =>
    intro a b
    cases a with
    | nil => simp
    | cons x a' =>
      cases b with
      | nil => simp
      | cons y b' =>
        simp only [List.zipWith_cons_cons]
        rw [ih a' b', Int.add_right_comm]

lemma sumAgg_perm {n : Nat} {l₁ l₂ : List NormRow} (h : l₁.Perm l₂) :
    sumAgg n l₁ = sumAgg n l₂ :=
  h.foldl_eq' (fun x _ y _ z => zipWith_add_right_comm z x.agg y.agg) _

lemma groupedAgg_perm {n : Nat} {m : Mask} {rows rows' : List NormRow}
    (h : rows.Perm rows') :
    (groupedAgg n m rows).Perm (groupedAgg n m rows') := by
  unfold groupedAgg
  refine ((((h.map (keyOf m)).dedup).map _).trans ?_)
  exact List.Perm.of_eq (List.map_congr_left fun k _ =>
    by rw [sumAgg_perm (h.filter fun r => decide (keyOf m r = k))])

end Topline

/-! ### The claims -/

namespace Topline

/-- C1: the spec's concrete two-row scenario: the channel-wildcard row over
(FR, Windows) and the fully wildcarded row both appear, with the summed
aggregates actives = 8, hours = 14. -/
theorem c1_concrete_scenario :
    [("date", Value.str "2019-01-01"), ("geo", Value.str "FR"),
     ("channel", Value.str "all"), ("os", Value.str "Windows"),
     ("actives", Value.int 8), ("hours", Value.int 14),
     ("new_records", Value.int 0)]
      ∈ reformat_data topline_agg_names historical_names c1InputRows ∧
    [("date", Value.str "2019-01-01"), ("geo", Value.str "all"),
     ("channel", Value.str "all"), ("os", Value.str "all"),
     ("actives", Value.int 8), ("hours", Value.int 14),
     ("new_records", Value.int 0)]
      ∈ reformat_data topline_agg_names historical_names c1InputRows := by
  decide

/-- C2: a geo in the 16-country allow-list is kept unchanged by the
normalization, any other geo (including null) becomes `"Other"`. -/
theorem c2_geo_bucketing (r : SummaryRow) :
    countries.length = 16 ∧
    (∀ g, g ∈ countries → r.geo = some g → (normalizeRow r).geo = g) ∧
    (∀ g, g ∉ countries → r.geo = some g → (normalizeRow r).geo = "Other") ∧
    (r.geo = none → (normalizeRow r).geo = "Other") := by
  refine ⟨rfl, ?_, ?_, ?_⟩ <;> intros <;> simp [normalizeRow, normalizeGeo, *]

/-- C2 witness: `"FR"` is kept, `"KR"` is bucketed to `"Other"`. -/
theorem c2_witness :
    (normalizeRow ⟨"20190101", some "FR", none, none, []⟩).geo = "FR" ∧
    (normalizeRow ⟨"20190101", some "KR", none, none, []⟩).geo = "Other" :=
  ⟨(c2_geo_bucketing _).2.1 "FR" (by decide) rfl,
   (c2_geo_bucketing _).2.2.1 "KR" (by decide) rfl⟩

/-- C3: a valid `yyyyMMdd` token is re-emitted dashed, an invalid one
yields a null date, and the date filter lets no null-date row through the
cube stage. -/
theorem c3_date_parse_and_drop (r : SummaryRow) :
    (validReportStart r.report_start = true →
      (normalizeRow r).date = some (dashDate r.report_start)) ∧
    (validReportStart r.report_start = false →
      (normalizeRow r).date = none) ∧
    ∀ (n : Nat) (rows : List SummaryRow) (c : CubeRow),
      c ∈ cubedStage n rows → c.date ≠ none := by
  refine ⟨fun h => by simp [normalizeRow, parseReportStart, h],
          fun h => by simp [normalizeRow, parseReportStart, h], ?_⟩
  intro n rows c hc hnone
  have hsome := (List.mem_filter.1 hc).2
  rw [hnone] at hsome
  simp at hsome

/-- C3 witness: `"20190101"` parses to `"2019-01-01"`, `"2019010x"` parses
to null, and a concrete retained cube row has a non-null date. -/
theorem c3_witness :
    (normalizeRow ⟨"20190101", none, none, none, []⟩).date =
      some (dashDate "20190101") ∧
    (normalizeRow ⟨"2019010x", none, none, none, []⟩).date = none ∧
    ({ geo := some "FR", channel := some "release", os := some "Windows",
       date := some "2019-01-01", agg := [5, 10] } : CubeRow).date ≠ none :=
  ⟨(c3_date_parse_and_drop ⟨"20190101", none, none, none, []⟩).1 (by decide),
   (c3_date_parse_and_drop ⟨"2019010x", none, none, none, []⟩).2.1 (by decide),
   (c3_date_parse_and_drop ⟨"20190101", none, none, none, []⟩).2.2 2 c1InputRows
     _ (by decide)⟩

/-- C4: the date cell of every output row is a concrete parsed date carried
by some input row; in particular no date-wildcard (or null-date) aggregate
row is ever emitted. -/
theorem c4_no_date_wildcard (aggNames histNames : List String)
    (rows : List SummaryRow) (out : List (String × Value))
    (hout : out ∈ reformat_data aggNames histNames rows)
    (v : Value) (hv : ("date", v) ∈ out) :
    ∃ d, v = Value.str d ∧ d ≠ "all" ∧
      ∃ r ∈ rows, parseReportStart r.report_start = some d := by
  obtain ⟨f, hf, hsel⟩ := reformat_mem hout
  rw [← hsel] at hv
  obtain ⟨name, hname, heq⟩ := List.mem_map.1 hv
  have h1 : name = "date" := congrArg Prod.fst heq
  have h2 : v = columnValue aggNames f name := (congrArg Prod.snd heq).symm
  subst h1
  obtain ⟨c, hc, hcf, _⟩ := filteredStage_mem hf
  obtain ⟨d, hd, r, hr, hparse⟩ := cubedStage_date hc
  refine ⟨d, ?_, parse_ne_all hparse, r, hr, hparse⟩
  rw [h2]
  have hcol : columnValue aggNames f "date" = .str f.date := by simp [columnValue]
  rw [hcol, ← hcf]
  simp [fillAll, hd]

/-- C4 witness at the concrete scenario input. -/
theorem c4_witness :
    ∃ d, Value.str "2019-01-01" = Value.str d ∧ d ≠ "all" ∧
      ∃ r ∈ c1InputRows, parseReportStart r.report_start = some d :=
  c4_no_date_wildcard topline_agg_names historical_names c1InputRows
    [("date", Value.str "2019-01-01"), ("geo", Value.str "FR"),
     ("channel", Value.str "all"), ("os", Value.str "Windows"),
     ("actives", Value.int 8), ("hours", Value.int 14),
     ("new_records", Value.int 0)]
    (by decide) (Value.str "2019-01-01") (by decide)

/-- C5: over the (spec-modelled) schemas, every output row's numeric
aggregate cells sum to a strictly positive value — the all-zero cube cells
are filtered out, and the filled column `new_records` contributes 0. -/
theorem c5_positive_totals (rows : List SummaryRow)
    (hWF : ∀ r ∈ rows, r.agg.length = 2)
    (out : List (String × Value))
    (hout : out ∈ reformat_data topline_agg_names historical_names rows) :
    ∃ a b, ("actives", Value.int a) ∈ out ∧ ("hours", Value.int b) ∈ out ∧
      ("new_records", Value.int 0) ∈ out ∧ 0 < a + b := by
  obtain ⟨f, hf, hsel⟩ := reformat_mem hout
  obtain ⟨c, hc, hcf, hpos⟩ := filteredStage_mem hf
  have hlen : f.agg.length = 2 := by
    rw [← hcf]
    exact cubedStage_agg_length hWF hc
  obtain ⟨a, b, hab⟩ := List.length_eq_two.1 hlen
  have htot : totalOf f = a + b := by
    simp [totalOf, hab]
  refine ⟨a, b, ?_, ?_, ?_, by rw [← htot]; exact hpos⟩
  · rw [← hsel]
    refine List.mem_map.2 ⟨"actives", by decide, ?_⟩
    simp [columnValue, topline_agg_names, aggValue, hab]
  · rw [← hsel]
    refine List.mem_map.2 ⟨"hours", by decide, ?_⟩
    simp [columnValue, topline_agg_names, aggValue, hab]
  · rw [← hsel]
    refine List.mem_map.2 ⟨"new_records", by decide, ?_⟩
    simp [columnValue, topline_agg_names, aggValue, hab]

/-- C5 witness at the concrete scenario input. -/
theorem c5_witness :
    ∃ a b,
      ("actives", Value.int a) ∈
        [("date", Value.str "2019-01-01"), ("geo", Value.str "all"),
         ("channel", Value.str "all"), ("os", Value.str "all"),
         ("actives", Value.int 8), ("hours", Value.int 14),
         ("new_records", Value.int 0)] ∧
      ("hours", Value.int b) ∈
        [("date", Value.str "2019-01-01"), ("geo", Value.str "all"),
         ("channel", Value.str "all"), ("os", Value.str "all"),
         ("actives", Value.int 8), ("hours", Value.int 14),
         ("new_records", Value.int 0)] ∧
      ("new_records", Value.int 0) ∈
        [("date", Value.str "2019-01-01"), ("geo", Value.str "all"),
         ("channel", Value.str "all"), ("os", Value.str "all"),
         ("actives", Value.int 8), ("hours", Value.int 14),
         ("new_records", Value.int 0)] ∧ 0 < a + b :=
  c5_positive_totals c1InputRows (by decide) _ (by decide)

/-- C7: the output's column-name list is exactly the historical schema's
declared order, and every column outside the `topline_columns` set is the
literal 0 in every row. -/
theorem c7_target_schema (aggNames histNames : List String)
    (rows : List SummaryRow) (out : List (String × Value))
    (hout : out ∈ reformat_data aggNames histNames rows) :
    out.map Prod.fst = histNames ∧
    ∀ name v, (name, v) ∈ out → name ∉ toplineColumnNames aggNames →
      v = Value.int 0 := by
  obtain ⟨f, hf, hsel⟩ := reformat_mem hout
  subst hsel
  constructor
  · simp only [selectHistorical, List.map_map]
    exact List.map_id histNames
  · intro name v hv hnot
    obtain ⟨n', hn', heq⟩ := List.mem_map.1 hv
    have h1 : n' = name := congrArg Prod.fst heq
    have h2 : v = columnValue aggNames f n' := (congrArg Prod.snd heq).symm
    subst h1
    simp [toplineColumnNames, attributeNames] at hnot
    obtain ⟨hg, hch, ho, hd, ha⟩ := hnot
    rw [h2]
    simp [columnValue, hg, hch, ho, hd, ha]

/-- C7 witness at the concrete scenario input. -/
theorem c7_witness :
    [("date", Value.str "2019-01-01"), ("geo", Value.str "FR"),
     ("channel", Value.str "all"), ("os", Value.str "Windows"),
     ("actives", Value.int 8), ("hours", Value.int 14),
     ("new_records", Value.int 0)].map Prod.fst = historical_names :=
  (c7_target_schema topline_agg_names historical_names c1InputRows _ (by decide)).1

/-- C6: dropping the null-date rows before the cube yields exactly the same
result as the implementation, which cubes all rows and then discards the
null-date groups with the date filter. -/
theorem c6_prefilter_equivalence (aggNames histNames : List String)
    (rows : List SummaryRow) :
    reformat_data_prefiltered aggNames histNames rows =
    reformat_data aggNames histNames rows := by
  unfold reformat_data reformat_data_prefiltered filteredStage filledStage
    cubedStage
  suffices h : whereDateNotNull (cubed aggNames.length
      ((normedStage rows).filter fun nr => nr.date.isSome)) =
      whereDateNotNull (cubed aggNames.length (normedStage rows)) by
    rw [h]
  unfold whereDateNotNull cubed
  rw [List.filter_flatMap, List.filter_flatMap]
  apply congrArg
  funext m
  rcases hm : m.date with _ | _
  · rw [whereDate_groupedAgg_of_not_date hm, whereDate_groupedAgg_of_not_date hm]
  · exact whereDate_groupedAgg_of_date hm (normedStage rows)

/-- C8: the pipeline is deterministic, and permuting the input rows only
permutes the output rows — the output multiset is input-order independent. -/
theorem c8_order_invariance (aggNames histNames : List String)
    (rows rows' : List SummaryRow) (hp : rows.Perm rows') :
    (reformat_data aggNames histNames rows).Perm
      (reformat_data aggNames histNames rows') ∧
    reformat_data aggNames histNames rows =
      reformat_data aggNames histNames rows := by
  refine ⟨?_, rfl⟩
  unfold reformat_data filteredStage filledStage cubedStage whereDateNotNull
    cubed normedStage
  exact ((((List.Perm.flatMap_left allMasks fun m _ =>
    groupedAgg_perm (hp.map normalizeRow)).filter _).map _).filter _).map _

/-- C8 witness: swapping the two scenario rows permutes (here: preserves)
the output. -/
theorem c8_witness :
    (reformat_data topline_agg_names historical_names c1InputRows).Perm
      (reformat_data topline_agg_names historical_names
        [⟨"20190101", some "FR", some "beta", some "Windows", [3, 4]⟩,
         ⟨"20190101", some "FR", some "release", some "Windows", [5, 10]⟩]) ∧
    reformat_data topline_agg_names historical_names c1InputRows =
      reformat_data topline_agg_names historical_names c1InputRows :=
  c8_order_invariance topline_agg_names historical_names _ _ (by decide)

/-- C9: for every input row with a concrete parsed date, the retained cube
(before zero-filtering) holds a candidate row for each of the `2 ^ 3`
concrete-versus-wildcard choices over (geo, channel, os), keyed by that
row's values, with the concrete date. -/
theorem c9_cube_completeness (n : Nat) (rows : List SummaryRow)
    (r : SummaryRow) (hr : r ∈ rows) (d : String)
    (hd : parseReportStart r.report_start = some d) (mg mc mo : Bool) :
    ∃ c ∈ cubedStage n rows,
      c.date = some d ∧
      c.geo = (if mg then some (normalizeGeo r.geo) else none) ∧
      c.channel = (if mc then r.channel else none) ∧
      c.os = (if mo then r.os else none) :=
  exists_cubedStage_row n hr hd mg mc mo

/-- C9 witness: the wildcard-geo, concrete-channel/os combination for the
first scenario row. -/
theorem c9_witness :
    ∃ c ∈ cubedStage 2 c1InputRows,
      c.date = some "2019-01-01" ∧
      c.geo = (if false then some (normalizeGeo (some "FR")) else none) ∧
      c.channel = (if true then some "release" else none) ∧
      c.os = (if true then some "Windows" else none) :=
  c9_cube_completeness 2 c1InputRows
    ⟨"20190101", some "FR", some "release", some "Windows", [5, 10]⟩
    (by decide) "2019-01-01" (by decide) false true true

/-- C10 counterexample: with a single input row whose geo is null, the
claim (every retained cube row grouped on the null value shows the
wildcard string) would force every retained row's geo cell to be `"all"` —
wildcard rows are filled to `"all"` and, per the claim, so are the rows
grouped on the null geo.  The code instead shows `"Other"` there: the null
geo is rewritten by the `otherwise('Other')` branch before the cube. -/
theorem c10_counterexample :
    (∃ c ∈ filteredStage 1 c10InputRows, c.geo = "Other") ∧
    ¬ (∀ c ∈ filteredStage 1 c10InputRows, c.geo = "all") := by
  decide

/-- C10 (amended): a null channel or os is conflated with the wildcard —
grouped on or wildcarded over, the filled cell reads `"all"` either way
(`fillStr` of the row's value when grouped, `"all"` when wildcarded, and
`fillStr none = "all"`); a null geo, however, is bucketed to `"Other"`
before the cube and never appears as `"all"` in a geo-grouped row. -/
theorem c10_null_conflation (n : Nat) (rows : List SummaryRow)
    (r : SummaryRow) (hr : r ∈ rows) (d : String)
    (hd : parseReportStart r.report_start = some d) (mg mc mo : Bool) :
    (∀ r' ∈ rows, r'.geo = none → (normalizeRow r').geo = "Other") ∧
    ∃ f ∈ filledStage n rows,
      f.date = d ∧
      f.geo = (if mg then normalizeGeo r.geo else "all") ∧
      f.channel = (if mc then fillStr r.channel else "all") ∧
      f.os = (if mo then fillStr r.os else "all") := by
  constructor
  · intro r' _ h
    simp [normalizeRow, normalizeGeo, h]
  · obtain ⟨c, hc, hcd, hcg, hcch, hcos⟩ := exists_cubedStage_row n hr hd mg mc mo
    refine ⟨fillAll c, List.mem_map_of_mem _ hc, ?_, ?_, ?_, ?_⟩
    · simp [fillAll, hcd]
    · cases mg <;> simp_all [fillAll, fillStr]
    · cases mc <;> simp_all [fillAll, fillStr]
    · cases mo <;> simp_all [fillAll, fillStr]

/-- C10 amended-claim witness: the null-channel row's fully grouped cube
row carries `"all"` in the channel cell, indistinguishable from a genuine
channel wildcard. -/
theorem c10_witness :
    (∀ r' ∈ ([⟨"20190101", some "DE", none, some "Linux", [7]⟩] :
        List SummaryRow), r'.geo = none → (normalizeRow r').geo = "Other") ∧
    ∃ f ∈ filledStage 1 [⟨"20190101", some "DE", none, some "Linux", [7]⟩],
      f.date = "2019-01-01" ∧
      f.geo = (if true then normalizeGeo (some "DE") else "all") ∧
      f.channel = (if true then fillStr none else "all") ∧
      f.os = (if true then fillStr (some "Linux") else "all") :=
  c10_null_conflation 1 _ ⟨"20190101", some "DE", none, some "Linux", [7]⟩
    (by decide) "2019-01-01" (by decide) true true true

end Topline
